import Mathlib

/-!
Shallow embedding of the simulation engine of the sea-urchin / coral-reef
agent-based model (files `SeaUrchinEcosystemModel.js` and its variant).

JavaScript numbers are modelled as exact rationals (`ℚ`).  `Math.sqrt`,
which the source uses only to clamp a velocity vector, is passed in as an
oracle function `sq : ℚ → ℚ`; every theorem about movement quantifies over
all oracles, so it in particular covers the true square root.  Distance
tests of the form `Math.sqrt dx*dx+dy*dy < r` are embedded as the exactly
equivalent rational test `0 < r ∧ d2 < r^2` (see `distLtB_eq_sqrt_lt`
below for the proof of equivalence against `Real.sqrt`).  `Math.random()`
draws are supplied by oracle records (`Rng`, `InitRng`), indexed by the
agent they are drawn for, so that every theorem quantifies over all random
streams.  The `0/0 = NaN` produced by JavaScript when averaging the algae
level of an empty coral list is modelled by an `Option ℚ` result, `none`
standing for NaN.
-/

namespace UrchinSim

/-- World width in simulation units (source: `const width = 800`). -/
def width : ℚ := 800

/-- World height in simulation units (source: `const height = 600`). -/
def height : ℚ := 600

/-- Grid cell size (source: `const cellSize = 20`). -/
def cellSize : ℚ := 20

/-- Number of grid columns, `Math.floor(width / cellSize)` = 40. -/
def gridWidth : ℕ := 40

/-- Number of grid rows, `Math.floor(height / cellSize)` = 30. -/
def gridHeight : ℕ := 30

/-- Coral status enumeration (source: `status: 'healthy' | 'degraded' | 'dead'`). -/
inductive CoralStatus where
  | healthy
  | degraded
  | dead
deriving DecidableEq

/-- A sea urchin, main-file variant (no per-individual maturity field). -/
structure Urchin where
  id : String
  x : ℚ
  y : ℚ
  vx : ℚ
  vy : ℚ
  age : ℚ
  isAdult : Bool
  energy : ℚ
  lastSpawn : ℕ
deriving DecidableEq

/-- A harvester agent. -/
structure Harvester where
  id : String
  x : ℚ
  y : ℚ
  vx : ℚ
  vy : ℚ
  harvestCount : ℕ
deriving DecidableEq

/-- A coral cell. -/
structure Coral where
  id : String
  x : ℚ
  y : ℚ
  health : ℚ
  algaeLevel : ℚ
  status : CoralStatus
deriving DecidableEq

/-- The simulation parameter bag (the fields the engine reads). -/
structure Params where
  initialUrchins : ℕ
  reproductionRate : ℚ
  grazingRate : ℚ
  urchinSpeed : ℚ
  maturityTime : ℚ
  spawnRadius : ℚ
  harvesterCount : ℕ
  harvestingRate : ℚ
  harvesterSpeed : ℚ
  harvestRadius : ℚ
  initialCoralCoverage : ℚ
  coralHealingRate : ℚ
  coralDegradationThreshold : ℚ
  algaeGrowthRate : ℚ
  maxAlgaeDensity : ℚ
deriving DecidableEq

/-- The agent collections (`agentsRef.current`). -/
structure AgentsState where
  seaUrchins : List Urchin
  harvesters : List Harvester
  corals : List Coral
deriving DecidableEq

/-- The full mutable engine state: agents, tick counter
(`tickRef.current`) and the cumulative harvested accumulator
(`statsAccumRef.current.harvestedCount`). -/
structure SimState where
  agents : AgentsState
  tick : ℕ
  harvestedAccum : ℕ
deriving DecidableEq

/-- The statistics snapshot computed by the engine.  `algaeCoverage` is an
`Option ℚ`: `none` models the NaN produced by the JavaScript `0/0` when
the coral list is empty. -/
structure Stats where
  juvenileUrchins : ℕ
  adultUrchins : ℕ
  totalUrchins : ℕ
  healthyCorals : ℕ
  degradedCorals : ℕ
  deadCorals : ℕ
  algaeCoverage : Option ℚ
  harvestedUrchins : ℕ
deriving DecidableEq

/-- Random-stream oracle for one call to `stepSimulation`.  Each field
supplies the `Math.random()` draws consumed on behalf of the agent with
the given id; `sq` supplies `Math.sqrt` for the velocity clamp. -/
structure Rng where
  sq : ℚ → ℚ
  moveU : String → ℚ × ℚ
  moveH : String → ℚ × ℚ
  reproCoin : String → ℚ
  reproJx : String → ℚ
  reproJy : String → ℚ
  reproJvx : String → ℚ
  reproJvy : String → ℚ
  reproId : String → String
  harvestCoin : String → ℚ

/-- Random-stream oracle for the initialisation / resize functions,
indexed by the agent's position in the generated collection. -/
structure InitRng where
  ux : ℕ → ℚ
  uy : ℕ → ℚ
  uvx : ℕ → ℚ
  uvy : ℕ → ℚ
  uAgeCoin : ℕ → ℚ
  uAdultCoin : ℕ → ℚ
  hx : ℕ → ℚ
  hy : ℕ → ℚ
  hvx : ℕ → ℚ
  hvy : ℕ → ℚ
  hId : ℕ → String
  coralCoin : ℕ → ℕ → ℚ

/-- Exact embedding of the test `Math.sqrt d2 < r` for `d2 ≥ 0`: over the
reals, `Real.sqrt d2 < r ↔ 0 < r ∧ d2 < r^2` (proved in
`distLtB_eq_sqrt_lt`). -/
def distLtB (d2 r : ℚ) : Bool :=
  decide (0 < r) && decide (d2 < r ^ 2)

/-- The wall-bounce block of `moveAgent` (source lines 401-409) on one
axis: if the updated coordinate left `[0, w]`, negate the velocity and
clamp the coordinate (`Math.max(0, Math.min(w, x))`). -/
def bounce (w x1 v : ℚ) : ℚ × ℚ :=
  if x1 < 0 ∨ x1 > w then (max 0 (min w x1), -v) else (x1, v)

/-- Source `moveAgent` (source lines 384-410): random walk with momentum, speed
clamp through the `sq` oracle, position update, and elastic reflection
with clamping at the world rectangle.  Returns `(x, y, vx, vy)`. -/
def moveAgent (sq : ℚ → ℚ) (x y vx vy speed rx ry : ℚ) : ℚ × ℚ × ℚ × ℚ :=
  let vx1 := vx + (rx - 1/2) * speed * (1/10)
  let vy1 := vy + (ry - 1/2) * speed * (1/10)
  let maxSpeed := speed * 2
  let currentSpeed := sq (vx1 ^ 2 + vy1 ^ 2)
  let vx2 := if currentSpeed > maxSpeed then vx1 / currentSpeed * maxSpeed else vx1
  let vy2 := if currentSpeed > maxSpeed then vy1 / currentSpeed * maxSpeed else vy1
  let xvx := bounce width (x + vx2) vx2
  let yvy := bounce height (y + vy2) vy2
  (xvx.1, yvy.1, xvx.2, yvy.2)

/-- Apply `moveAgent` to an urchin, drawing its two perturbations from the
oracle. -/
def moveUrchin (rng : Rng) (p : Params) (u : Urchin) : Urchin :=
  let r := rng.moveU u.id
  let m := moveAgent rng.sq u.x u.y u.vx u.vy p.urchinSpeed r.1 r.2
  { u with x := m.1, y := m.2.1, vx := m.2.2.1, vy := m.2.2.2 }

/-- Apply `moveAgent` to a harvester. -/
def moveHarvester (rng : Rng) (p : Params) (h : Harvester) : Harvester :=
  let r := rng.moveH h.id
  let m := moveAgent rng.sq h.x h.y h.vx h.vy p.harvesterSpeed r.1 r.2
  { h with x := m.1, y := m.2.1, vx := m.2.2.1, vy := m.2.2.2 }

/-- The aging part of the urchin phase (source lines 549-553):
`age++`, `if (age > maturityTime) isAdult = true` (strict comparison
against the global parameter in this variant), then
`energy = max(0, energy - 0.1)`. -/
def ageUrchin (p : Params) (u : Urchin) : Urchin :=
  let u1 := { u with age := u.age + 1 }
  let u2 := if u1.age > p.maturityTime then { u1 with isAdult := true } else u1
  { u2 with energy := max 0 (u2.energy - 1/10) }

/-- The guard of one grazing interaction (source line 420):
`distance < cellSize && coral.status !== 'dead'`, with the urchin position
passed explicitly. -/
def grazeCondB (_p : Params) (ux uy : ℚ) (c : Coral) : Bool :=
  distLtB ((ux - c.x) ^ 2 + (uy - c.y) ^ 2) cellSize
    && decide (c.status ≠ CoralStatus.dead)

/-- The coral side of one grazing interaction (source lines 422-434):
health decreases by `grazingRate`; if health falls to ≤ 0 the coral dies
with health pinned to 0, else if below the threshold it degrades; the
algae level drops by `grazingRate * 0.3`, floored at 0, in every case. -/
def coralAfterGraze (p : Params) (c : Coral) : Coral :=
  let h := c.health - p.grazingRate
  let alg := max 0 (c.algaeLevel - p.grazingRate * (3/10))
  if h ≤ 0 then
    { c with health := 0, status := CoralStatus.dead, algaeLevel := alg }
  else if h < p.coralDegradationThreshold then
    { c with health := h, status := CoralStatus.degraded, algaeLevel := alg }
  else
    { c with health := h, algaeLevel := alg }

/-- One (urchin, coral) grazing interaction: when the guard holds the
urchin gains `grazingRate * 0.5` energy and the coral is updated. -/
def grazeOne (p : Params) (u : Urchin) (c : Coral) : Urchin × Coral :=
  if grazeCondB p u.x u.y c then
    ({ u with energy := u.energy + p.grazingRate * (1/2) }, coralAfterGraze p c)
  else
    (u, c)

/-- Source `grazeCorals` (source lines 413-437): one urchin sweeps the whole
coral list in order, accumulating energy and updating each coral in
place. -/
def grazeCorals (p : Params) (u : Urchin) : List Coral → Urchin × List Coral
  | [] => (u, [])
  | c :: cs =>
      let r := grazeOne p u c
      let rest := grazeCorals p r.1 cs
      (rest.1, r.2 :: rest.2)

/-- The move/age/graze phase (source lines 547-557): each urchin in order
is moved, aged, decays energy, and then grazes the shared coral list. -/
def urchinPhase (rng : Rng) (p : Params) : List Urchin → List Coral → List Urchin × List Coral
  | [], cs => ([], cs)
  | u :: us, cs =>
      let r := grazeCorals p (ageUrchin p (moveUrchin rng p u)) cs
      let rest := urchinPhase rng p us r.2
      (r.1 :: rest.1, rest.2)

/-- The spawn-attempt condition for one adult (source lines 445-456):
energy above 60, cooldown of 50 ticks elapsed, some other adult within
the spawn radius, and the reproduction coin succeeding. -/
def spawnB (p : Params) (rng : Rng) (tick : ℕ) (adults : List Urchin) (u : Urchin) : Bool :=
  decide (u.energy > 60) && decide (u.lastSpawn + 50 < tick)
    && adults.any (fun o =>
        decide (o.id ≠ u.id)
          && distLtB ((u.x - o.x) ^ 2 + (u.y - o.y) ^ 2) p.spawnRadius)
    && decide (rng.reproCoin u.id < p.reproductionRate)

/-- The offspring created by a successful spawn (source lines 458-468):
position jittered by `(rand - 0.5) * 20` per axis, fresh velocity, zero
age, juvenile, energy 30, `lastSpawn` set to the current tick. -/
def mkOffspring (p : Params) (rng : Rng) (tick : ℕ) (u : Urchin) : Urchin :=
  { id := rng.reproId u.id
    x := u.x + (rng.reproJx u.id - 1/2) * 20
    y := u.y + (rng.reproJy u.id - 1/2) * 20
    vx := (rng.reproJvx u.id - 1/2) * p.urchinSpeed
    vy := (rng.reproJvy u.id - 1/2) * p.urchinSpeed
    age := 0
    isAdult := false
    energy := 30
    lastSpawn := tick }

/-- Collect the offspring produced by iterating over the adults in order;
the neighbor test always refers to the fixed pre-reproduction `adults`
list. -/
def collectNewborns (p : Params) (rng : Rng) (tick : ℕ) (adults : List Urchin) :
    List Urchin → List Urchin
  | [] => []
  | u :: us =>
      if spawnB p rng tick adults u then
        mkOffspring p rng tick u :: collectNewborns p rng tick adults us
      else
        collectNewborns p rng tick adults us

/-- Source `reproduceUrchins` (source lines 440-477).  Returns the urchin list
with successful parents debited 20 energy and their `lastSpawn` updated
(the source mutates them in place), together with the newborn list, which
the caller appends afterwards. -/
def reproduceUrchins (p : Params) (rng : Rng) (tick : ℕ) (urchins : List Urchin) :
    List Urchin × List Urchin :=
  let adults := urchins.filter (fun u => u.isAdult)
  (urchins.map (fun u =>
      if u.isAdult && spawnB p rng tick adults u then
        { u with energy := u.energy - 20, lastSpawn := tick }
      else u),
   collectNewborns p rng tick adults adults)

/-- The nearby-adult targets of one harvester (source lines 486-493). -/
def harvestTargets (p : Params) (h : Harvester) (us : List Urchin) : List Urchin :=
  us.filter (fun u =>
    u.isAdult && distLtB ((h.x - u.x) ^ 2 + (h.y - u.y) ^ 2) p.harvestRadius)

/-- The first target of minimal squared distance, i.e. the head of the
stable sort by distance performed by the source (lines 497-501);
`Math.sqrt` is monotone so sorting by distance and by squared distance
coincide. -/
def nearestTarget (h : Harvester) : List Urchin → Option Urchin
  | [] => none
  | u :: us =>
      match nearestTarget h us with
      | none => some u
      | some b =>
          if (h.x - u.x) ^ 2 + (h.y - u.y) ^ 2 ≤ (h.x - b.x) ^ 2 + (h.y - b.y) ^ 2 then
            some u
          else
            some b

/-- One harvester's action (source lines 484-510): if it has targets and
its coin succeeds, the nearest target is removed from the shared list and
its personal count and the tick counter increase by one. -/
def harvestOne (p : Params) (rng : Rng) (h : Harvester) (us : List Urchin) :
    Harvester × List Urchin × ℕ :=
  let ts := harvestTargets p h us
  if !ts.isEmpty && decide (rng.harvestCoin h.id < p.harvestingRate * (1/10)) then
    match nearestTarget h ts with
    | some t => ({ h with harvestCount := h.harvestCount + 1 }, us.erase t, 1)
    | none => (h, us, 0)
  else
    (h, us, 0)

/-- Source `harvestUrchins` (source lines 480-513): harvesters act in order on
the shared remaining-urchins list; returns the updated harvesters, the
remaining urchins, and the number harvested this tick. -/
def harvestUrchins (p : Params) (rng : Rng) : List Harvester → List Urchin →
    List Harvester × List Urchin × ℕ
  | [], us => ([], us, 0)
  | h :: hs, us =>
      let r := harvestOne p rng h us
      let rest := harvestUrchins p rng hs r.2.1
      (r.1 :: rest.1, rest.2.1, r.2.2 + rest.2.2)

/-- Source `updateCorals` body for one coral (source lines 516-537).  Note the
algae-growth branch, although it tests for `degraded || dead`, sits inside
the outer `status !== 'dead'` guard, so its `dead` disjunct is
unreachable: dead corals are skipped entirely. -/
def updateCoral (p : Params) (density : ℚ) (c : Coral) : Coral :=
  if c.status ≠ CoralStatus.dead then
    let c1 :=
      if density < 1/2 then
        let h := min 100 (c.health + p.coralHealingRate)
        { c with health := h,
                 status := if h > p.coralDegradationThreshold then CoralStatus.healthy else c.status }
      else c
    if c1.status = CoralStatus.degraded ∨ c1.status = CoralStatus.dead then
      { c1 with algaeLevel := min p.maxAlgaeDensity (c1.algaeLevel + p.algaeGrowthRate) }
    else c1
  else c

/-- Source `updateCorals` over the whole list. -/
def updateCorals (p : Params) (density : ℚ) (cs : List Coral) : List Coral :=
  cs.map (updateCoral p density)

/-- Result of the move/age/graze phase of one step. -/
def stepPhase1 (rng : Rng) (p : Params) (s : SimState) : List Urchin × List Coral :=
  urchinPhase rng p s.agents.seaUrchins s.agents.corals

/-- Urchins surviving the starvation cull (source line 560). -/
def stepSurvivors (rng : Rng) (p : Params) (s : SimState) : List Urchin :=
  (stepPhase1 rng p s).1.filter (fun u => decide (u.energy > 0))

/-- Number of urchins starved this tick (energy ≤ 0 after the phase-1
passes). -/
def starvedCount (rng : Rng) (p : Params) (s : SimState) : ℕ :=
  ((stepPhase1 rng p s).1.filter (fun u => decide (u.energy ≤ 0))).length

/-- The newborns of this tick. -/
def stepNewborns (rng : Rng) (p : Params) (s : SimState) : List Urchin :=
  (reproduceUrchins p rng s.tick (stepSurvivors rng p s)).2

/-- Number of newborns this tick. -/
def newbornCount (rng : Rng) (p : Params) (s : SimState) : ℕ :=
  (stepNewborns rng p s).length

/-- The urchin population entering the harvest phase: updated parents with
the newborns appended (source lines 563-564). -/
def stepAfterRepro (rng : Rng) (p : Params) (s : SimState) : List Urchin :=
  (reproduceUrchins p rng s.tick (stepSurvivors rng p s)).1 ++ stepNewborns rng p s

/-- The harvesters after their locomotion (source lines 567-569). -/
def stepMovedHarvesters (rng : Rng) (p : Params) (s : SimState) : List Harvester :=
  s.agents.harvesters.map (moveHarvester rng p)

/-- The harvesting phase result of one step. -/
def stepHarvest (rng : Rng) (p : Params) (s : SimState) : List Harvester × List Urchin × ℕ :=
  harvestUrchins p rng (stepMovedHarvesters rng p s) (stepAfterRepro rng p s)

/-- Number of urchins harvested this tick. -/
def harvestedThisTick (rng : Rng) (p : Params) (s : SimState) : ℕ :=
  (stepHarvest rng p s).2.2

/-- Source `stepSimulation` (source lines 540-584): the full fixed pipeline of
one tick, ending with the urchin-density computation, the coral update,
the accumulator update and the tick increment. -/
def stepSimulation (rng : Rng) (p : Params) (s : SimState) : SimState :=
  let us := (stepHarvest rng p s).2.1
  let density : ℚ := (us.length : ℚ) / ((gridWidth : ℚ) * (gridHeight : ℚ))
  { agents :=
      { seaUrchins := us
        harvesters := (stepHarvest rng p s).1
        corals := updateCorals p density (stepPhase1 rng p s).2 }
    tick := s.tick + 1
    harvestedAccum := s.harvestedAccum + harvestedThisTick rng p s }

/-- Iterated stepping, one oracle record per tick. -/
def stepN (p : Params) : List Rng → SimState → SimState
  | [], s => s
  | r :: rs, s => stepN p rs (stepSimulation r p s)

/-- The statistics snapshot (source lines 590-607).  The average algae
level is `sum / corals.length`; on an empty list the JavaScript `0/0`
yields NaN, modelled as `none`. -/
def computeStats (s : SimState) : Stats :=
  let cs := s.agents.corals
  let avg : Option ℚ :=
    if cs.length = 0 then none
    else some ((cs.map (fun c => c.algaeLevel)).sum / (cs.length : ℚ))
  { juvenileUrchins := (s.agents.seaUrchins.filter (fun u => !u.isAdult)).length
    adultUrchins := (s.agents.seaUrchins.filter (fun u => u.isAdult)).length
    totalUrchins := (s.agents.seaUrchins.filter (fun u => !u.isAdult)).length
      + (s.agents.seaUrchins.filter (fun u => u.isAdult)).length
    healthyCorals := (cs.filter (fun c => c.status = CoralStatus.healthy)).length
    degradedCorals := (cs.filter (fun c => c.status = CoralStatus.degraded)).length
    deadCorals := (cs.filter (fun c => c.status = CoralStatus.dead)).length
    algaeCoverage := avg.map (fun a => a * 100)
    harvestedUrchins := s.harvestedAccum }

/-- Source `initializeUrchins` body for one urchin (source lines 246-257): age is
either `maturityTime + 1` or `0` by one coin, and `isAdult` is an
independent second coin. -/
def mkInitUrchin (p : Params) (r : InitRng) (i : ℕ) : Urchin :=
  { id := "urchin-" ++ toString i
    x := r.ux i * width
    y := r.uy i * height
    vx := (r.uvx i - 1/2) * p.urchinSpeed
    vy := (r.uvy i - 1/2) * p.urchinSpeed
    age := if r.uAgeCoin i > 1/2 then p.maturityTime + 1 else 0
    isAdult := decide (r.uAdultCoin i > 1/2)
    energy := 50
    lastSpawn := 0 }

/-- Source `initializeUrchins` (source lines 244-260). -/
def initUrchins (p : Params) (r : InitRng) : List Urchin :=
  (List.range p.initialUrchins).map (mkInitUrchin p r)

/-- Source `initializeHarvesters` body for one harvester (source lines 263-276). -/
def mkInitHarvester (p : Params) (r : InitRng) (i : ℕ) : Harvester :=
  { id := "harvester-" ++ toString i
    x := r.hx i * width
    y := r.hy i * height
    vx := (r.hvx i - 1/2) * p.harvesterSpeed
    vy := (r.hvy i - 1/2) * p.harvesterSpeed
    harvestCount := 0 }

/-- Source `initializeHarvesters` (source lines 263-276). -/
def initHarvesters (p : Params) (r : InitRng) : List Harvester :=
  (List.range p.harvesterCount).map (mkInitHarvester p r)

/-- Source `initializeCorals` (source lines 222-241): Bernoulli draw per grid
cell with probability `initialCoralCoverage / 100`. -/
def initCorals (p : Params) (r : InitRng) : List Coral :=
  (List.range gridWidth).flatMap (fun gx =>
    (List.range gridHeight).filterMap (fun gy =>
      if r.coralCoin gx gy < p.initialCoralCoverage / 100 then
        some { id := "coral-" ++ toString gx ++ "-" ++ toString gy
               x := (gx : ℚ) * cellSize + cellSize / 2
               y := (gy : ℚ) * cellSize + cellSize / 2
               health := 100
               algaeLevel := 0
               status := CoralStatus.healthy }
      else none))

/-- Source `initializeSimulation` (source lines 351-381): re-seed all agent
collections, zero the tick and the cumulative harvest accumulator. -/
def initSim (p : Params) (r : InitRng) : SimState :=
  { agents :=
      { seaUrchins := initUrchins p r
        harvesters := initHarvesters p r
        corals := initCorals p r }
    tick := 0
    harvestedAccum := 0 }

/-- A freshly created harvester appended by a live resize (source lines
324-332), with its id drawn from the oracle (`harvester-${Date.now()}-i`
in the source). -/
def mkResizeHarvester (p : Params) (r : InitRng) (i : ℕ) : Harvester :=
  { id := r.hId i
    x := r.hx i * width
    y := r.hy i * height
    vx := (r.hvx i - 1/2) * p.harvesterSpeed
    vy := (r.hvy i - 1/2) * p.harvesterSpeed
    harvestCount := 0 }

/-- Source `updateHarvesterCount` (source lines 317-348): growing appends fresh
harvesters with zero count; shrinking keeps the first `newCount`
(`slice(0, newCount)`). -/
def updateHarvesterCount (p : Params) (r : InitRng) (newCount : ℕ)
    (hs : List Harvester) : List Harvester :=
  if hs.length < newCount then
    hs ++ (List.range (newCount - hs.length)).map (fun k => mkResizeHarvester p r (hs.length + k))
  else if newCount < hs.length then
    hs.take newCount
  else hs

/-- The sum of the harvesters' individual harvest counters. -/
def harvestSum (hs : List Harvester) : ℕ :=
  (hs.map (fun h => h.harvestCount)).sum

/-- Invariant tracked by claim C7: every urchin currently carrying id `i`
is an adult. -/
def adultIdInv (i : String) (s : SimState) : Prop :=
  ∀ u ∈ s.agents.seaUrchins, u.id = i → u.isAdult = true

/-- No newborn of this step takes id `i`. -/
def idFresh (i : String) (rng : Rng) (p : Params) (s : SimState) : Bool :=
  (stepNewborns rng p s).all (fun n => decide (n.id ≠ i))

/-- Id `i` is never reassigned to a newborn along the run. -/
def idFreshRun (i : String) (p : Params) : List Rng → SimState → Bool
  | [], _ => true
  | r :: rs, s => idFresh i r p s && idFreshRun i p rs (stepSimulation r p s)

/-! Concrete states and oracles used by the closed counterexample and
witness theorems below. -/

/-- A trivial random oracle: every `Math.random()` draw is 0 except the
offspring x-jitter, which is 0.99 (a legal draw, `Math.random() ∈ [0,1)`),
and the y-jitter, which is 0.5. -/
def rngZero : Rng :=
  { sq := fun _ => 0
    moveU := fun _ => (0, 0)
    moveH := fun _ => (0, 0)
    reproCoin := fun _ => 0
    reproJx := fun _ => 99/100
    reproJy := fun _ => 1/2
    reproJvx := fun _ => 0
    reproJvy := fun _ => 0
    reproId := fun s => s ++ "-child"
    harvestCoin := fun _ => 0 }

/-- A trivial initialisation oracle: every draw is 0. -/
def rInit0 : InitRng :=
  { ux := fun _ => 0, uy := fun _ => 0, uvx := fun _ => 0, uvy := fun _ => 0
    uAgeCoin := fun _ => 0, uAdultCoin := fun _ => 0
    hx := fun _ => 0, hy := fun _ => 0, hvx := fun _ => 0, hvy := fun _ => 0
    hId := fun i => "harvester-new-" ++ toString i
    coralCoin := fun _ _ => 0 }

/-- An initialisation oracle whose age coin is 0.6 and whose adult coin is
0.4 (both legal draws). -/
def rInit46 : InitRng :=
  { rInit0 with uAgeCoin := fun _ => 3/5, uAdultCoin := fun _ => 2/5 }

/-- The source's default parameter values (lines 24-52). -/
def pBase : Params :=
  { initialUrchins := 30
    reproductionRate := 1/20
    grazingRate := 1/2
    urchinSpeed := 1/2
    maturityTime := 100
    spawnRadius := 50
    harvesterCount := 3
    harvestingRate := 1
    harvesterSpeed := 1
    harvestRadius := 30
    initialCoralCoverage := 40
    coralHealingRate := 1/50
    coralDegradationThreshold := 50
    algaeGrowthRate := 3/100
    maxAlgaeDensity := 4/5 }

/-- A dead coral carrying some algae. -/
def cDead : Coral :=
  { id := "coral-0-0", x := 10, y := 10, health := 0, algaeLevel := 3/10,
    status := CoralStatus.dead }

/-- A degraded coral carrying the same algae level. -/
def cDeg : Coral :=
  { id := "coral-0-1", x := 10, y := 30, health := 30, algaeLevel := 3/10,
    status := CoralStatus.degraded }

/-- Parameters for the empty-coral scenario: zero coverage, no agents
moving. -/
def pEmpty : Params :=
  { pBase with initialCoralCoverage := 0, initialUrchins := 0,
               harvesterCount := 0, urchinSpeed := 0, harvesterSpeed := 0 }

/-- A state with an empty coral collection (as produced by a reset with
`initialCoralCoverage = 0`). -/
def sEmpty : SimState :=
  { agents := { seaUrchins := [], harvesters := [], corals := [] }
    tick := 0
    harvestedAccum := 0 }

/-- Parameters freezing all locomotion and reproduction, with the default
harvesting configuration. -/
def pStill : Params :=
  { pBase with urchinSpeed := 0, harvesterSpeed := 0, reproductionRate := 0 }

/-- An adult urchin sitting at the origin. -/
def uOrigin : Urchin :=
  { id := "urchin-0", x := 0, y := 0, vx := 0, vy := 0, age := 200,
    isAdult := true, energy := 50, lastSpawn := 0 }

/-- A harvester sitting at the origin. -/
def hOrigin : Harvester :=
  { id := "harvester-0", x := 0, y := 0, vx := 0, vy := 0, harvestCount := 0 }

/-- One adult urchin in reach of one harvester, no corals. -/
def sHarvest : SimState :=
  { agents := { seaUrchins := [uOrigin], harvesters := [hOrigin], corals := [] }
    tick := 0
    harvestedAccum := 0 }

/-- An urchin one tick short of maturity (age 99 against the default
maturity time 100). -/
def u99 : Urchin :=
  { id := "urchin-99", x := 100, y := 100, vx := 0, vy := 0, age := 99,
    isAdult := false, energy := 50, lastSpawn := 0 }

/-- Parameters for the reproduction scenarios: immobile urchins, certain
reproduction, no harvesters. -/
def pSpawn : Params :=
  { pBase with urchinSpeed := 0, reproductionRate := 1, harvesterCount := 0 }

/-- An adult urchin on the right world boundary. -/
def uEdgeA : Urchin :=
  { id := "a", x := 800, y := 300, vx := 0, vy := 0, age := 200,
    isAdult := true, energy := 100, lastSpawn := 0 }

/-- A second adult at the same spot. -/
def uEdgeB : Urchin := { uEdgeA with id := "b" }

/-- Two boundary adults ready to spawn at tick 60. -/
def sEdge : SimState :=
  { agents := { seaUrchins := [uEdgeA, uEdgeB], harvesters := [], corals := [] }
    tick := 60
    harvestedAccum := 0 }

/-- One lone adult, used for the adult-stickiness witness. -/
def sLone : SimState :=
  { agents := { seaUrchins := [uOrigin], harvesters := [], corals := [] }
    tick := 0
    harvestedAccum := 0 }

/-- A juvenile urchin next to a healthy coral, used for the grazing
witness. -/
def uGraze : Urchin :=
  { id := "urchin-g", x := 0, y := 0, vx := 0, vy := 0, age := 10,
    isAdult := false, energy := 50, lastSpawn := 0 }

/-- A healthy coral within grazing distance of `uGraze`. -/
def cGraze : Coral :=
  { id := "coral-g", x := 5, y := 5, health := 100, algaeLevel := 1/10,
    status := CoralStatus.healthy }

/-- A state holding a single dead coral, used for the frame witness. -/
def sDead : SimState :=
  { agents := { seaUrchins := [uOrigin], harvesters := [], corals := [cDead] }
    tick := 0
    harvestedAccum := 0 }

end UrchinSim

namespace UrchinVariant

open UrchinSim

/-- A sea urchin of the variant file (`part_000`), which carries a
per-individual `maturityTime`. -/
structure Urchin where
  id : String
  x : ℚ
  y : ℚ
  vx : ℚ
  vy : ℚ
  age : ℚ
  maturityTime : ℚ
  isAdult : Bool
  energy : ℚ
  lastSpawn : ℕ
deriving DecidableEq

/-- Variant `initializeUrchins` body (part_000 lines 253-271): maturity
drawn uniformly from [54,170], age from [0,199], and
`isAdult: age >= maturityTime` derived from them. -/
def mkInitUrchin (i : ℕ) (randMat randAge : ℚ) : Urchin :=
  let mt : ℚ := (⌊randMat * 117⌋ : ℤ) + 54
  let age : ℚ := (⌊randAge * 200⌋ : ℤ)
  { id := "urchin-" ++ toString i
    x := 0, y := 0, vx := 0, vy := 0
    age := age
    maturityTime := mt
    isAdult := decide (age ≥ mt)
    energy := 50
    lastSpawn := 0 }

/-- Variant aging sub-step (part_000 lines 548-553): `age++` then
`if (age >= maturityTime) isAdult = true` — inclusive comparison against
the individual's own maturity. -/
def ageUrchin (u : Urchin) : Urchin :=
  let u1 := { u with age := u.age + 1 }
  let u2 := if u1.age ≥ u1.maturityTime then { u1 with isAdult := true } else u1
  { u2 with energy := max 0 (u2.energy - 1/10) }

end UrchinVariant

namespace UrchinSim

/-! Supporting lemmas about the grazing fold. -/

theorem grazeOne_fst_x (p : Params) (u : Urchin) (c : Coral) :
    (grazeOne p u c).1.x = u.x := by
  unfold grazeOne; split <;> rfl

theorem grazeOne_fst_y (p : Params) (u : Urchin) (c : Coral) :
    (grazeOne p u c).1.y = u.y := by
  unfold grazeOne; split <;> rfl

theorem grazeOne_fst_id (p : Params) (u : Urchin) (c : Coral) :
    (grazeOne p u c).1.id = u.id := by
  unfold grazeOne; split <;> rfl

theorem grazeOne_fst_isAdult (p : Params) (u : Urchin) (c : Coral) :
    (grazeOne p u c).1.isAdult = u.isAdult := by
  unfold grazeOne; split <;> rfl

theorem grazeOne_fst_age (p : Params) (u : Urchin) (c : Coral) :
    (grazeOne p u c).1.age = u.age := by
  unfold grazeOne; split <;> rfl

theorem grazeOne_fst_lastSpawn (p : Params) (u : Urchin) (c : Coral) :
    (grazeOne p u c).1.lastSpawn = u.lastSpawn := by
  unfold grazeOne; split <;> rfl

theorem grazeOne_fst_energy (p : Params) (u : Urchin) (c : Coral) :
    (grazeOne p u c).1.energy
      = u.energy + (if grazeCondB p u.x u.y c then p.grazingRate * (1/2) else 0) := by
  unfold grazeOne; split <;> simp_all

theorem grazeOne_snd (p : Params) (u : Urchin) (c : Coral) :
    (grazeOne p u c).2 = if grazeCondB p u.x u.y c then coralAfterGraze p c else c := by
  unfold grazeOne; split <;> simp_all

theorem grazeCorals_fst_x (p : Params) (u : Urchin) (cs : List Coral) :
    (grazeCorals p u cs).1.x = u.x := by
  induction cs generalizing u with
  | nil => rfl
  | cons c cs ih => rw [grazeCorals, ih, grazeOne_fst_x]

theorem grazeCorals_fst_y (p : Params) (u : Urchin) (cs : List Coral) :
    (grazeCorals p u cs).1.y = u.y := by
  induction cs generalizing u with
  | nil => rfl
  | cons c cs ih => rw [grazeCorals, ih, grazeOne_fst_y]

theorem grazeCorals_fst_id (p : Params) (u : Urchin) (cs : List Coral) :
    (grazeCorals p u cs).1.id = u.id := by
  induction cs generalizing u with
  | nil => rfl
  | cons c cs ih => rw [grazeCorals, ih, grazeOne_fst_id]

theorem grazeCorals_fst_isAdult (p : Params) (u : Urchin) (cs : List Coral) :
    (grazeCorals p u cs).1.isAdult = u.isAdult := by
  induction cs generalizing u with
  | nil => rfl
  | cons c cs ih => rw [grazeCorals, ih, grazeOne_fst_isAdult]

theorem grazeCorals_fst_age (p : Params) (u : Urchin) (cs : List Coral) :
    (grazeCorals p u cs).1.age = u.age := by
  induction cs generalizing u with
  | nil => rfl
  | cons c cs ih => rw [grazeCorals, ih, grazeOne_fst_age]

theorem grazeCorals_fst_lastSpawn (p : Params) (u : Urchin) (cs : List Coral) :
    (grazeCorals p u cs).1.lastSpawn = u.lastSpawn := by
  induction cs generalizing u with
  | nil => rfl
  | cons c cs ih => rw [grazeCorals, ih, grazeOne_fst_lastSpawn]

theorem grazeCorals_fst_energy (p : Params) (u : Urchin) (cs : List Coral) :
    (grazeCorals p u cs).1.energy
      = u.energy + (cs.countP (grazeCondB p u.x u.y) : ℚ) * (p.grazingRate * (1/2)) := by
  induction cs generalizing u with
  | nil => simp [grazeCorals]
  | cons c cs ih =>
      rw [grazeCorals]
      have hx := grazeOne_fst_x p u c
      have hy := grazeOne_fst_y p u c
      have he := grazeOne_fst_energy p u c
      rw [ih, hx, hy, he, List.countP_cons]
      by_cases h : grazeCondB p u.x u.y c = true
      · simp [h]; ring
      · simp [h]

theorem grazeCorals_snd (p : Params) (u : Urchin) (cs : List Coral) :
    (grazeCorals p u cs).2
      = cs.map (fun c => if grazeCondB p u.x u.y c then coralAfterGraze p c else c) := by
  induction cs generalizing u with
  | nil => rfl
  | cons c cs ih =>
      rw [grazeCorals, List.map_cons]
      have hx := grazeOne_fst_x p u c
      have hy := grazeOne_fst_y p u c
      rw [ih, hx, hy, grazeOne_snd]

/-! Supporting lemmas about locomotion. -/

theorem bounce_fst_bounds (w x1 v : ℚ) (hw : 0 ≤ w) :
    0 ≤ (bounce w x1 v).1 ∧ (bounce w x1 v).1 ≤ w := by
  unfold bounce
  split
  · exact ⟨le_max_left 0 _, max_le hw (min_le_left _ _)⟩
  · rename_i h
    push_neg at h
    exact ⟨h.1, h.2⟩

theorem moveAgent_x_bounds (sq : ℚ → ℚ) (x y vx vy speed rx ry : ℚ) :
    0 ≤ (moveAgent sq x y vx vy speed rx ry).1
      ∧ (moveAgent sq x y vx vy speed rx ry).1 ≤ width := by
  exact bounce_fst_bounds _ _ _ (by norm_num [width])

theorem moveAgent_y_bounds (sq : ℚ → ℚ) (x y vx vy speed rx ry : ℚ) :
    0 ≤ (moveAgent sq x y vx vy speed rx ry).2.1
      ∧ (moveAgent sq x y vx vy speed rx ry).2.1 ≤ height := by
  exact bounce_fst_bounds _ _ _ (by norm_num [height])

theorem moveUrchin_bounds (rng : Rng) (p : Params) (u : Urchin) :
    0 ≤ (moveUrchin rng p u).x ∧ (moveUrchin rng p u).x ≤ width
      ∧ 0 ≤ (moveUrchin rng p u).y ∧ (moveUrchin rng p u).y ≤ height := by
  have hx := moveAgent_x_bounds rng.sq u.x u.y u.vx u.vy p.urchinSpeed
    (rng.moveU u.id).1 (rng.moveU u.id).2
  have hy := moveAgent_y_bounds rng.sq u.x u.y u.vx u.vy p.urchinSpeed
    (rng.moveU u.id).1 (rng.moveU u.id).2
  exact ⟨hx.1, hx.2, hy.1, hy.2⟩

theorem moveHarvester_bounds (rng : Rng) (p : Params) (h : Harvester) :
    0 ≤ (moveHarvester rng p h).x ∧ (moveHarvester rng p h).x ≤ width
      ∧ 0 ≤ (moveHarvester rng p h).y ∧ (moveHarvester rng p h).y ≤ height := by
  have hx := moveAgent_x_bounds rng.sq h.x h.y h.vx h.vy p.harvesterSpeed
    (rng.moveH h.id).1 (rng.moveH h.id).2
  have hy := moveAgent_y_bounds rng.sq h.x h.y h.vx h.vy p.harvesterSpeed
    (rng.moveH h.id).1 (rng.moveH h.id).2
  exact ⟨hx.1, hx.2, hy.1, hy.2⟩

/-! Supporting lemmas about aging. -/

theorem ageUrchin_id (p : Params) (u : Urchin) : (ageUrchin p u).id = u.id := by
  unfold ageUrchin; dsimp only; split <;> rfl

theorem ageUrchin_x (p : Params) (u : Urchin) : (ageUrchin p u).x = u.x := by
  unfold ageUrchin; dsimp only; split <;> rfl

theorem ageUrchin_y (p : Params) (u : Urchin) : (ageUrchin p u).y = u.y := by
  unfold ageUrchin; dsimp only; split <;> rfl

theorem ageUrchin_age (p : Params) (u : Urchin) : (ageUrchin p u).age = u.age + 1 := by
  unfold ageUrchin; dsimp only; split <;> rfl

theorem ageUrchin_lastSpawn (p : Params) (u : Urchin) :
    (ageUrchin p u).lastSpawn = u.lastSpawn := by
  unfold ageUrchin; dsimp only; split <;> rfl

theorem ageUrchin_isAdult (p : Params) (u : Urchin) :
    (ageUrchin p u).isAdult = (u.isAdult || decide (u.age + 1 > p.maturityTime)) := by
  unfold ageUrchin
  dsimp only
  split
  · rename_i h
    simp_all
  · rename_i h
    simp_all

theorem ageUrchin_energy (p : Params) (u : Urchin) :
    (ageUrchin p u).energy = max 0 (u.energy - 1/10) := by
  unfold ageUrchin; dsimp only; split <;> rfl

/-! Supporting lemmas about the move/age/graze phase. -/

theorem urchinPhase_fst_length (rng : Rng) (p : Params) (us : List Urchin) (cs : List Coral) :
    (urchinPhase rng p us cs).1.length = us.length := by
  induction us generalizing cs with
  | nil => rfl
  | cons u us ih => rw [urchinPhase]; simpa using ih _

theorem urchinPhase_fst_mem (rng : Rng) (p : Params) (us : List Urchin) (cs : List Coral)
    (u' : Urchin) (hm : u' ∈ (urchinPhase rng p us cs).1) :
    ∃ u ∈ us, ∃ cs', u' = (grazeCorals p (ageUrchin p (moveUrchin rng p u)) cs').1 := by
  induction us generalizing cs with
  | nil => simp [urchinPhase] at hm
  | cons u us ih =>
      rw [urchinPhase] at hm
      rcases List.mem_cons.mp hm with h | h
      · exact ⟨u, List.mem_cons_self u us, cs, h⟩
      · rcases ih _ h with ⟨u0, hu0, cs', he⟩
        exact ⟨u0, List.mem_cons_of_mem u hu0, cs', he⟩

theorem urchinPhase_snd_get (rng : Rng) (p : Params) (us : List Urchin) (cs : List Coral)
    (i : ℕ) (c : Coral) (h1 : cs[i]? = some c) (h2 : c.status = CoralStatus.dead) :
    (urchinPhase rng p us cs).2[i]? = some c := by
  induction us generalizing cs with
  | nil => simpa [urchinPhase] using h1
  | cons u us ih =>
      rw [urchinPhase]
      apply ih
      rw [grazeCorals_snd, List.getElem?_map, h1]
      have : grazeCondB p (ageUrchin p (moveUrchin rng p u)).x
          (ageUrchin p (moveUrchin rng p u)).y c = false := by
        unfold grazeCondB
        simp [h2]
      simp [this]

/-! Supporting lemmas about harvesting. -/

theorem nearestTarget_mem (h : Harvester) (ts : List Urchin) (t : Urchin)
    (he : nearestTarget h ts = some t) : t ∈ ts := by
  induction ts with
  | nil => simp [nearestTarget] at he
  | cons u us ih =>
      rw [nearestTarget] at he
      rcases hr : nearestTarget h us with _ | b
      · rw [hr] at he
        simp at he
        simp [he]
      · rw [hr] at he
        dsimp only at he
        split at he
        · simp at he; simp [he]
        · simp at he
          rw [he] at hr
          exact List.mem_cons_of_mem u (ih hr)

theorem harvestOne_len (p : Params) (rng : Rng) (h : Harvester) (us : List Urchin) :
    (harvestOne p rng h us).2.1.length + (harvestOne p rng h us).2.2 = us.length := by
  unfold harvestOne
  dsimp only
  split
  · rcases hr : nearestTarget h (harvestTargets p h us) with _ | t
    · simp
    · have ht : t ∈ us := List.mem_of_mem_filter (nearestTarget_mem _ _ _ hr)
      have hlen := List.length_erase_of_mem ht
      have hpos : 0 < us.length := List.length_pos.mpr (List.ne_nil_of_mem ht)
      simp [hlen]
      omega
  · simp

theorem harvestOne_subset (p : Params) (rng : Rng) (h : Harvester) (us : List Urchin) :
    (harvestOne p rng h us).2.1 ⊆ us := by
  unfold harvestOne
  dsimp only
  split
  · rcases hr : nearestTarget h (harvestTargets p h us) with _ | t
    · simp
    · simpa using List.erase_subset t us
  · simp

theorem harvestOne_fst (p : Params) (rng : Rng) (h : Harvester) (us : List Urchin) :
    (harvestOne p rng h us).1.harvestCount = h.harvestCount + (harvestOne p rng h us).2.2
      ∧ (harvestOne p rng h us).1.x = h.x ∧ (harvestOne p rng h us).1.y = h.y := by
  unfold harvestOne
  dsimp only
  split
  · rcases hr : nearestTarget h (harvestTargets p h us) with _ | t <;> simp
  · simp

theorem harvestUrchins_len (p : Params) (rng : Rng) (hs : List Harvester) (us : List Urchin) :
    (harvestUrchins p rng hs us).2.1.length + (harvestUrchins p rng hs us).2.2 = us.length := by
  induction hs generalizing us with
  | nil => simp [harvestUrchins]
  | cons h hs ih =>
      rw [harvestUrchins]
      dsimp only
      have h1 := harvestOne_len p rng h us
      have h2 := ih (harvestOne p rng h us).2.1
      omega

theorem harvestUrchins_subset (p : Params) (rng : Rng) (hs : List Harvester) (us : List Urchin) :
    (harvestUrchins p rng hs us).2.1 ⊆ us := by
  induction hs generalizing us with
  | nil => simp [harvestUrchins]
  | cons h hs ih =>
      rw [harvestUrchins]
      dsimp only
      exact (ih (harvestOne p rng h us).2.1).trans (harvestOne_subset p rng h us)

theorem harvestUrchins_sum (p : Params) (rng : Rng) (hs : List Harvester) (us : List Urchin) :
    harvestSum (harvestUrchins p rng hs us).1
      = harvestSum hs + (harvestUrchins p rng hs us).2.2 := by
  induction hs generalizing us with
  | nil => simp [harvestUrchins, harvestSum]
  | cons h hs ih =>
      rw [harvestUrchins]
      dsimp only
      have h1 := (harvestOne_fst p rng h us).1
      have h2 := ih (harvestOne p rng h us).2.1
      simp only [harvestSum, List.map_cons, List.sum_cons] at *
      omega

theorem harvestUrchins_fst_mem (p : Params) (rng : Rng) (hs : List Harvester)
    (us : List Urchin) (h' : Harvester) (hm : h' ∈ (harvestUrchins p rng hs us).1) :
    ∃ h ∈ hs, h'.x = h.x ∧ h'.y = h.y := by
  induction hs generalizing us with
  | nil => simp [harvestUrchins] at hm
  | cons h hs ih =>
      rw [harvestUrchins] at hm
      rcases List.mem_cons.mp hm with he | he
      · refine ⟨h, List.mem_cons_self h hs, ?_, ?_⟩
        · rw [he]; exact (harvestOne_fst p rng h us).2.1
        · rw [he]; exact (harvestOne_fst p rng h us).2.2
      · rcases ih _ he with ⟨h0, hh0, hx, hy⟩
        exact ⟨h0, List.mem_cons_of_mem h hh0, hx, hy⟩

/-! Supporting lemmas about reproduction. -/

theorem collectNewborns_length (p : Params) (rng : Rng) (tick : ℕ) (adults l : List Urchin) :
    (collectNewborns p rng tick adults l).length = l.countP (spawnB p rng tick adults) := by
  induction l with
  | nil => rfl
  | cons u us ih =>
      rw [collectNewborns, List.countP_cons]
      by_cases h : spawnB p rng tick adults u = true
      · simp [h, ih]
      · simp [h, ih]

theorem collectNewborns_mem (p : Params) (rng : Rng) (tick : ℕ) (adults l : List Urchin)
    (n : Urchin) (hm : n ∈ collectNewborns p rng tick adults l) :
    ∃ u ∈ l, spawnB p rng tick adults u = true ∧ n = mkOffspring p rng tick u := by
  induction l with
  | nil => simp [collectNewborns] at hm
  | cons u us ih =>
      rw [collectNewborns] at hm
      by_cases h : spawnB p rng tick adults u = true
      · rw [if_pos h] at hm
        rcases List.mem_cons.mp hm with he | he
        · exact ⟨u, List.mem_cons_self u us, h, he⟩
        · rcases ih he with ⟨u0, hu0, hs, he0⟩
          exact ⟨u0, List.mem_cons_of_mem u hu0, hs, he0⟩
      · rw [if_neg h] at hm
        rcases ih hm with ⟨u0, hu0, hs, he0⟩
        exact ⟨u0, List.mem_cons_of_mem u hu0, hs, he0⟩

/-! A filter partition lemma for the starvation cull. -/

theorem length_filter_energy (l : List Urchin) :
    (l.filter (fun u => decide (u.energy > 0))).length
      + (l.filter (fun u => decide (u.energy ≤ 0))).length = l.length := by
  induction l with
  | nil => rfl
  | cons u us ih =>
      rw [List.filter_cons, List.filter_cons]
      by_cases h : (0:ℚ) < u.energy
      · have h2 : ¬ u.energy ≤ 0 := not_le.mpr h
        rw [decide_eq_true h, decide_eq_false h2, if_pos rfl, if_neg (by simp)]
        simp only [List.length_cons]
        omega
      · have h2 : u.energy ≤ 0 := not_lt.mp h
        rw [decide_eq_false h, decide_eq_true h2, if_neg (by simp), if_pos rfl]
        simp only [List.length_cons]
        omega

theorem urchinPhase_corals_nil (rng : Rng) (p : Params) (us : List Urchin) :
    (urchinPhase rng p us []).2 = [] := by
  induction us with
  | nil => rfl
  | cons u us ih =>
      rw [urchinPhase]
      dsimp only
      rw [grazeCorals]
      exact ih

/-- The rational distance test is exactly the source's
`Math.sqrt d2 < r` over the reals. -/
theorem distLtB_eq_sqrt_lt (d2 r : ℚ) :
    distLtB d2 r = true ↔ Real.sqrt (d2 : ℝ) < (r : ℝ) := by
  unfold distLtB
  rcases le_or_lt r 0 with hr | hr
  · constructor
    · intro hb
      simp at hb
      exact absurd hb.1 (not_lt.mpr hr)
    · intro hs
      have h1 := Real.sqrt_nonneg (d2 : ℝ)
      have h2 : (r : ℝ) ≤ 0 := by exact_mod_cast hr
      linarith
  · have hrR : (0 : ℝ) < (r : ℝ) := by exact_mod_cast hr
    have h2 : Real.sqrt (d2 : ℝ) < (r : ℝ) ↔ (d2 : ℝ) < (r : ℝ) ^ 2 := Real.sqrt_lt' hrR
    rw [h2]
    constructor
    · intro hb
      simp at hb
      exact_mod_cast hb.2
    · intro hlt
      simp
      exact ⟨hr, by exact_mod_cast hlt⟩

/-- C1: the spec asserts that in the coral-recovery sub-step every
degraded OR dead coral gains `algaeGrowthRate` of algae.  In the code the
algae-growth branch is nested inside the `status !== 'dead'` guard, so a
dead coral is left entirely unchanged, while a degraded one does gain
exactly `algaeGrowthRate`: the growth rate is nonzero, yet the dead
coral's algae level does not move. -/
theorem claim1_dead_coral_algae_frozen :
    updateCoral pBase 0 cDead = cDead
      ∧ (updateCoral pBase 0 cDeg).algaeLevel = cDeg.algaeLevel + pBase.algaeGrowthRate
      ∧ pBase.algaeGrowthRate ≠ 0 := by
  refine ⟨by simp [updateCoral, cDead], ?_, by norm_num [pBase]⟩
  norm_num [updateCoral, cDeg, pBase]
  simp

/-- C4 counterexample: with the legal draws 0.6 (age coin) and 0.4
(adult coin), initialisation produces an urchin whose age exceeds the
maturity time but whose `isAdult` is false; and an urchin of age 99
reaches age = maturityTime = 100 in the aging sub-step without becoming
adult, because the code uses the strict test `age > maturityTime`. -/
theorem claim4_init_age_adult_mismatch :
    (mkInitUrchin pBase rInit46 0).age ≥ pBase.maturityTime
      ∧ (mkInitUrchin pBase rInit46 0).isAdult = false
      ∧ (ageUrchin pBase u99).age ≥ pBase.maturityTime
      ∧ (ageUrchin pBase u99).isAdult = false := by
  refine ⟨?_, ?_, ?_, ?_⟩ <;>
    norm_num [mkInitUrchin, ageUrchin, rInit46, rInit0, pBase, u99]

/-- C4 (amended): in the fixed-maturity variant, the aging sub-step sets
`isAdult` exactly when `age + 1 > maturityTime` (strict) and never clears
it, while initialisation draws `isAdult` as a coin flip independent of the
age draw; in the per-individual variant (`part_000`), initialisation does
derive `isAdult = (age ≥ maturityTime)` and aging uses the inclusive
test against the individual's own maturity. -/
theorem claim4_adult_rule_as_implemented :
    (∀ (p : Params) (u : Urchin),
        (ageUrchin p u).isAdult = (u.isAdult || decide (u.age + 1 > p.maturityTime)))
      ∧ (∀ (p : Params) (r : InitRng) (i : ℕ),
          (mkInitUrchin p r i).isAdult = decide (r.uAdultCoin i > 1/2)
            ∧ (mkInitUrchin p r i).age
                = (if r.uAgeCoin i > 1/2 then p.maturityTime + 1 else 0))
      ∧ (∀ (i : ℕ) (rm ra : ℚ),
          (UrchinVariant.mkInitUrchin i rm ra).isAdult
            = decide ((UrchinVariant.mkInitUrchin i rm ra).age
                ≥ (UrchinVariant.mkInitUrchin i rm ra).maturityTime))
      ∧ (∀ u : UrchinVariant.Urchin,
          (UrchinVariant.ageUrchin u).isAdult
            = (u.isAdult || decide (u.age + 1 ≥ u.maturityTime))) := by
  refine ⟨fun p u => ageUrchin_isAdult p u, fun p r i => ⟨rfl, rfl⟩, fun i rm ra => rfl, ?_⟩
  intro u
  unfold UrchinVariant.ageUrchin
  dsimp only
  split
  · rename_i h
    simp_all
  · rename_i h
    simp_all

/-- C6: after every step the urchin count equals the previous count minus
the starvation deaths, minus the harvested urchins, plus the newborns —
the three observable deltas reconcile exactly. -/
theorem claim6_population_reconciliation (rng : Rng) (p : Params) (s : SimState) :
    ((stepSimulation rng p s).agents.seaUrchins.length : ℤ)
      = (s.agents.seaUrchins.length : ℤ) - starvedCount rng p s
        - harvestedThisTick rng p s + newbornCount rng p s := by
  have h1 : (stepPhase1 rng p s).1.length = s.agents.seaUrchins.length :=
    urchinPhase_fst_length rng p _ _
  have h2 : (stepSurvivors rng p s).length + starvedCount rng p s
      = (stepPhase1 rng p s).1.length :=
    length_filter_energy _
  have h3 : (stepAfterRepro rng p s).length
      = (stepSurvivors rng p s).length + newbornCount rng p s := by
    unfold stepAfterRepro newbornCount stepNewborns reproduceUrchins
    simp
  have h4 : (stepSimulation rng p s).agents.seaUrchins.length
      + harvestedThisTick rng p s = (stepAfterRepro rng p s).length :=
    harvestUrchins_len p rng (stepMovedHarvesters rng p s) (stepAfterRepro rng p s)
  omega

/-- C10: a coral that is dead at the start of a step is left entirely
unchanged by the step: the grazing pass skips it (its guard requires a
non-dead status) and the recovery pass skips it (outer guard), so its
status, health and algae level keep their prior values. -/
theorem claim10_dead_coral_frame (rng : Rng) (p : Params) (s : SimState)
    (i : ℕ) (c : Coral) (h1 : s.agents.corals[i]? = some c)
    (h2 : c.status = CoralStatus.dead) :
    (stepSimulation rng p s).agents.corals[i]? = some c := by
  have hp : (stepPhase1 rng p s).2[i]? = some c :=
    urchinPhase_snd_get rng p _ _ i c h1 h2
  show (updateCorals p _ (stepPhase1 rng p s).2)[i]? = some c
  unfold updateCorals
  rw [List.getElem?_map, hp]
  simp [updateCoral, h2]

/-- C10 witness: the concrete dead coral `cDead`, in a state with one
urchin next to it, survives a full step untouched. -/
theorem claim10_witness :
    sDead.agents.corals[0]? = some cDead ∧ cDead.status = CoralStatus.dead
      ∧ (stepSimulation rngZero pBase sDead).agents.corals[0]? = some cDead :=
  ⟨rfl, rfl, claim10_dead_coral_frame rngZero pBase sDead 0 cDead rfl rfl⟩

theorem stepSimulation_corals_nil (rng : Rng) (p : Params) (s : SimState)
    (hc : s.agents.corals = []) : (stepSimulation rng p s).agents.corals = [] := by
  have h0 : (stepPhase1 rng p s).2 = [] := by
    unfold stepPhase1
    rw [hc]
    exact urchinPhase_corals_nil rng p _
  show updateCorals p _ (stepPhase1 rng p s).2 = []
  rw [h0]
  rfl

theorem harvestSum_moved (rng : Rng) (p : Params) (hs : List Harvester) :
    harvestSum (hs.map (moveHarvester rng p)) = harvestSum hs := by
  unfold harvestSum
  rw [List.map_map]
  rfl

/-- C2 (amended): a reset with `initialCoralCoverage = 0` produces an
empty coral collection, and stepping a state with no corals throws no
error and keeps the coral collection empty, with all coral-status counts
reported as 0 — but the average algae coverage is the unguarded `0/0`,
i.e. NaN (`none`), not the 0% the spec promises. -/
theorem claim2_empty_corals_no_throw_but_nan :
    (∀ (q : Params) (r : InitRng), (∀ i j, 0 ≤ r.coralCoin i j) →
        q.initialCoralCoverage = 0 → initCorals q r = [])
      ∧ (∀ (rng : Rng) (p : Params) (s : SimState), s.agents.corals = [] →
          (stepSimulation rng p s).agents.corals = []
            ∧ (computeStats (stepSimulation rng p s)).healthyCorals = 0
            ∧ (computeStats (stepSimulation rng p s)).degradedCorals = 0
            ∧ (computeStats (stepSimulation rng p s)).deadCorals = 0
            ∧ (computeStats (stepSimulation rng p s)).algaeCoverage = none) := by
  constructor
  · intro q r hcoin hcov
    unfold initCorals
    rw [hcov]
    rw [List.flatMap_eq_nil_iff]
    intro gx _
    rw [List.filterMap_eq_nil_iff]
    intro gy _
    rw [if_neg]
    push_neg
    calc (0:ℚ) / 100 = 0 := by norm_num
    _ ≤ r.coralCoin gx gy := hcoin gx gy
  · intro rng p s hc
    have h1 : (stepSimulation rng p s).agents.corals = [] :=
      stepSimulation_corals_nil rng p s hc
    refine ⟨h1, ?_, ?_, ?_, ?_⟩ <;> simp [computeStats, h1]

/-- C2 counterexample: starting from the empty-coral state, one step
leaves the reported algae coverage as NaN (`none`), not the claimed
0%. -/
theorem claim2_nan_on_empty_corals :
    (computeStats (stepSimulation rngZero pEmpty sEmpty)).algaeCoverage ≠ some 0 := by
  have h1 : (stepSimulation rngZero pEmpty sEmpty).agents.corals = [] :=
    stepSimulation_corals_nil rngZero pEmpty sEmpty rfl
  simp [computeStats, h1]

/-- C2 witness: the hypotheses of the amended theorem hold at the
concrete empty state and oracle. -/
theorem claim2_witness :
    ((∀ i j, 0 ≤ rInit0.coralCoin i j) ∧ pEmpty.initialCoralCoverage = 0
        ∧ initCorals pEmpty rInit0 = [])
      ∧ (sEmpty.agents.corals = []
        ∧ (computeStats (stepSimulation rngZero pEmpty sEmpty)).algaeCoverage = none) :=
  ⟨⟨fun i j => le_refl 0,
    by norm_num [pEmpty, pBase],
    claim2_empty_corals_no_throw_but_nan.1 pEmpty rInit0 (fun i j => le_refl 0)
      (by norm_num [pEmpty, pBase])⟩,
   ⟨rfl,
    (claim2_empty_corals_no_throw_but_nan.2 rngZero pEmpty sEmpty rfl).2.2.2.2⟩⟩

/-- C3 (amended): the cumulative harvested statistic equals the sum of
the harvesters' individual counters after a reset, and every step and
every growing resize preserve the equality; the claim fails only for
shrinking resizes, which drop removed harvesters' counters (see the
counterexample). -/
theorem claim3_accounting_invariant :
    (∀ (rng : Rng) (p : Params) (s : SimState),
        s.harvestedAccum = harvestSum s.agents.harvesters →
          (stepSimulation rng p s).harvestedAccum
            = harvestSum (stepSimulation rng p s).agents.harvesters)
      ∧ (∀ (p : Params) (r : InitRng) (n : ℕ) (hs : List Harvester), hs.length ≤ n →
          harvestSum (updateHarvesterCount p r n hs) = harvestSum hs)
      ∧ (∀ (p : Params) (r : InitRng), (initSim p r).harvestedAccum = 0
          ∧ harvestSum (initSim p r).agents.harvesters = 0) := by
  refine ⟨?_, ?_, ?_⟩
  · intro rng p s hacc
    have h1 : (stepSimulation rng p s).harvestedAccum
        = s.harvestedAccum + (stepHarvest rng p s).2.2 := rfl
    have h2 : (stepSimulation rng p s).agents.harvesters = (stepHarvest rng p s).1 := rfl
    have h3 := harvestUrchins_sum p rng (stepMovedHarvesters rng p s) (stepAfterRepro rng p s)
    have h4 : harvestSum (stepMovedHarvesters rng p s) = harvestSum s.agents.harvesters :=
      harvestSum_moved rng p _
    rw [h1, h2]
    show s.harvestedAccum + (stepHarvest rng p s).2.2
      = harvestSum (harvestUrchins p rng (stepMovedHarvesters rng p s) (stepAfterRepro rng p s)).1
    rw [h3, h4, hacc]
    rfl
  · intro p r n hs hlen
    unfold updateHarvesterCount
    rcases lt_or_eq_of_le hlen with hlt | heq
    · rw [if_pos hlt]
      unfold harvestSum
      rw [List.map_append, List.sum_append, List.map_map]
      have : (List.range (n - hs.length)).map
          ((fun h => h.harvestCount) ∘ fun k => mkResizeHarvester p r (hs.length + k))
          = (List.range (n - hs.length)).map (fun _ => 0) := by
        apply List.map_congr_left
        intro k _
        rfl
      rw [this]
      simp
    · rw [if_neg (by omega), if_neg (by omega)]
  · intro p r
    refine ⟨rfl, ?_⟩
    show harvestSum (initHarvesters p r) = 0
    unfold harvestSum initHarvesters
    rw [List.map_map]
    have : (List.range p.harvesterCount).map
        ((fun h => h.harvestCount) ∘ mkInitHarvester p r)
        = (List.range p.harvesterCount).map (fun _ => 0) := by
      apply List.map_congr_left
      intro k _
      rfl
    rw [this]
    simp

/-- C3 counterexample: after one step in which the harvester at the
origin catches the adult urchin sitting there, the cumulative statistic
is 1; shrinking the harvester collection to zero then yields harvesters
whose individual counters sum to 0, breaking the claimed equality. -/
theorem claim3_shrink_breaks_accounting :
    (stepSimulation rngZero pStill sHarvest).harvestedAccum = 1
      ∧ harvestSum (updateHarvesterCount pStill rInit0 0
          (stepSimulation rngZero pStill sHarvest).agents.harvesters) = 0 := by
  constructor
  · show sHarvest.harvestedAccum + harvestedThisTick rngZero pStill sHarvest = 1
    norm_num [harvestedThisTick, stepHarvest, stepAfterRepro, stepNewborns, stepSurvivors,
      stepPhase1, stepMovedHarvesters, urchinPhase, grazeCorals, moveUrchin, moveHarvester,
      moveAgent, bounce, ageUrchin, reproduceUrchins, collectNewborns, spawnB, mkOffspring,
      harvestUrchins, harvestOne, harvestTargets, nearestTarget, distLtB,
      rngZero, pStill, pBase, sHarvest, uOrigin, hOrigin, width, height, cellSize]
  · have h0 : updateHarvesterCount pStill rInit0 0
        (stepSimulation rngZero pStill sHarvest).agents.harvesters = [] := by
      unfold updateHarvesterCount
      rcases (stepSimulation rngZero pStill sHarvest).agents.harvesters with _ | ⟨a, l⟩
      · simp
      · simp
    rw [h0]
    rfl

/-- C3 witness: at the concrete pre-step state the equality hypothesis of
the amended theorem holds, and the theorem transports it across the
step. -/
theorem claim3_witness :
    sHarvest.harvestedAccum = harvestSum sHarvest.agents.harvesters
      ∧ (stepSimulation rngZero pStill sHarvest).harvestedAccum
          = harvestSum (stepSimulation rngZero pStill sHarvest).agents.harvesters :=
  ⟨by norm_num [sHarvest, harvestSum, hOrigin],
   claim3_accounting_invariant.1 rngZero pStill sHarvest
     (by norm_num [sHarvest, harvestSum, hOrigin])⟩

theorem reproduceUrchins_fst (p : Params) (rng : Rng) (tick : ℕ) (us : List Urchin) :
    (reproduceUrchins p rng tick us).1
      = us.map (fun u =>
          if u.isAdult && spawnB p rng tick (us.filter (fun v => v.isAdult)) u then
            { u with energy := u.energy - 20, lastSpawn := tick }
          else u) := rfl

theorem reproduceUrchins_snd (p : Params) (rng : Rng) (tick : ℕ) (us : List Urchin) :
    (reproduceUrchins p rng tick us).2
      = collectNewborns p rng tick (us.filter (fun v => v.isAdult))
          (us.filter (fun v => v.isAdult)) := rfl

/-- C5 (amended): every agent that underwent locomotion this tick ends
the step inside the world rectangle (the bounce block guarantees it for
all inputs), and every urchin in the post-step population is either a
newborn of this tick (zero age, `lastSpawn` = the step's tick) or lies
inside the rectangle.  Newborns themselves can lie up to 10 units outside
(see the counterexample), because their jittered position is not
clamped. -/
theorem claim5_bounds_after_motion (rng : Rng) (p : Params) (s : SimState) :
    (∀ h ∈ (stepSimulation rng p s).agents.harvesters,
        0 ≤ h.x ∧ h.x ≤ width ∧ 0 ≤ h.y ∧ h.y ≤ height)
      ∧ (∀ u ∈ (stepSimulation rng p s).agents.seaUrchins,
          (u.age = 0 ∧ u.lastSpawn = s.tick)
            ∨ (0 ≤ u.x ∧ u.x ≤ width ∧ 0 ≤ u.y ∧ u.y ≤ height)) := by
  constructor
  · intro h hm
    have hm' : h ∈ (stepHarvest rng p s).1 := hm
    rcases harvestUrchins_fst_mem p rng _ _ h hm' with ⟨h0, hh0, hx, hy⟩
    rcases List.mem_map.mp hh0 with ⟨h1, _, he⟩
    have hb := moveHarvester_bounds rng p h1
    rw [hx, hy, ← he]
    exact hb
  · intro u hm
    have hm4 : u ∈ stepAfterRepro rng p s := harvestUrchins_subset p rng _ _ hm
    unfold stepAfterRepro at hm4
    rcases List.mem_append.mp hm4 with h3 | hn
    · right
      rw [reproduceUrchins_fst] at h3
      rcases List.mem_map.mp h3 with ⟨u2, hu2, he⟩
      have hu1 : u2 ∈ (stepPhase1 rng p s).1 := List.mem_of_mem_filter hu2
      rcases urchinPhase_fst_mem rng p _ _ u2 hu1 with ⟨u0, _, cs', he2⟩
      have hx2 : u.x = u2.x := by rw [← he]; split <;> rfl
      have hy2 : u.y = u2.y := by rw [← he]; split <;> rfl
      have hx3 : u2.x = (moveUrchin rng p u0).x := by
        rw [he2, grazeCorals_fst_x, ageUrchin_x]
      have hy3 : u2.y = (moveUrchin rng p u0).y := by
        rw [he2, grazeCorals_fst_y, ageUrchin_y]
      have hb := moveUrchin_bounds rng p u0
      rw [hx2, hy2, hx3, hy3]
      exact hb
    · left
      unfold stepNewborns at hn
      rw [reproduceUrchins_snd] at hn
      rcases collectNewborns_mem p rng s.tick _ _ u hn with ⟨par, _, _, he⟩
      rw [he]
      exact ⟨rfl, rfl⟩

/-- C5 counterexample: from the state with two adults on the right world
boundary, one step produces a newborn at x = 809.8 > 800 — an observable
post-step world state containing an out-of-bounds urchin. -/
theorem claim5_newborn_escapes_bounds :
    ((stepSimulation rngZero pSpawn sEdge).agents.seaUrchins.any
        (fun u => decide (u.x > width))) = true := by
  norm_num [stepSimulation, stepHarvest, stepAfterRepro, stepNewborns, stepSurvivors,
    stepPhase1, stepMovedHarvesters, harvestedThisTick, urchinPhase, grazeCorals,
    moveUrchin, moveAgent, bounce, ageUrchin, reproduceUrchins, collectNewborns, spawnB,
    mkOffspring, harvestUrchins, updateCorals, distLtB,
    rngZero, pSpawn, pBase, sEdge, uEdgeA, uEdgeB, width, height, cellSize]
  simp
  norm_num

/-- C5 witness: the harvester of the concrete harvest scenario is inside
the world rectangle after the step. -/
theorem claim5_witness :
    ∃ h ∈ (stepSimulation rngZero pStill sHarvest).agents.harvesters,
      0 ≤ h.x ∧ h.x ≤ width ∧ 0 ≤ h.y ∧ h.y ≤ height := by
  have hmem : ({ hOrigin with harvestCount := 1 } : Harvester)
      ∈ (stepSimulation rngZero pStill sHarvest).agents.harvesters := by
    norm_num [stepSimulation, stepHarvest, stepAfterRepro, stepNewborns, stepSurvivors,
      stepPhase1, stepMovedHarvesters, harvestedThisTick, urchinPhase, grazeCorals,
      moveUrchin, moveHarvester, moveAgent, bounce, ageUrchin, reproduceUrchins,
      collectNewborns, spawnB, mkOffspring, harvestUrchins, harvestOne, harvestTargets,
      nearestTarget, distLtB, updateCorals,
      rngZero, pStill, pBase, sHarvest, uOrigin, hOrigin, width, height, cellSize]
  exact ⟨_, hmem, (claim5_bounds_after_motion rngZero pStill sHarvest).1 _ hmem⟩

theorem moveUrchin_id (rng : Rng) (p : Params) (u : Urchin) :
    (moveUrchin rng p u).id = u.id := rfl

theorem moveUrchin_isAdult (rng : Rng) (p : Params) (u : Urchin) :
    (moveUrchin rng p u).isAdult = u.isAdult := rfl

theorem moveUrchin_age (rng : Rng) (p : Params) (u : Urchin) :
    (moveUrchin rng p u).age = u.age := rfl

theorem adultIdInv_step (i : String) (rng : Rng) (p : Params) (s : SimState)
    (hinv : adultIdInv i s) (hfresh : idFresh i rng p s = true) :
    adultIdInv i (stepSimulation rng p s) := by
  intro u hm hid
  have hm4 : u ∈ stepAfterRepro rng p s := harvestUrchins_subset p rng _ _ hm
  unfold stepAfterRepro at hm4
  rcases List.mem_append.mp hm4 with h3 | hn
  · rw [reproduceUrchins_fst] at h3
    rcases List.mem_map.mp h3 with ⟨u2, hu2, he⟩
    have hu1 : u2 ∈ (stepPhase1 rng p s).1 := List.mem_of_mem_filter hu2
    rcases urchinPhase_fst_mem rng p _ _ u2 hu1 with ⟨u0, hu0, cs', he2⟩
    have hid2 : u.id = u2.id := by rw [← he]; split <;> rfl
    have had2 : u.isAdult = u2.isAdult := by rw [← he]; split <;> rfl
    have hid3 : u2.id = u0.id := by
      rw [he2, grazeCorals_fst_id, ageUrchin_id, moveUrchin_id]
    have had0 : u0.isAdult = true := hinv u0 hu0 (by rw [← hid3, ← hid2, hid])
    have had3 : u2.isAdult = true := by
      rw [he2, grazeCorals_fst_isAdult, ageUrchin_isAdult, moveUrchin_isAdult, had0]
      rfl
    rw [had2, had3]
  · exfalso
    unfold idFresh at hfresh
    have hne := List.all_eq_true.mp hfresh u hn
    simp at hne
    exact hne hid

/-- C7: once an urchin is adult, no sequence of further steps clears the
flag.  The invariant "every urchin currently carrying id `i` is adult" is
preserved by every step along a run in which no newborn reuses id `i`:
aging only ever sets `isAdult` to true, starvation and harvesting only
remove urchins, and reproduction leaves the flag untouched. -/
theorem claim7_adult_sticky (i : String) (p : Params) (rngs : List Rng) (s : SimState)
    (hinv : adultIdInv i s) (hfresh : idFreshRun i p rngs s = true) :
    adultIdInv i (stepN p rngs s) := by
  induction rngs generalizing s with
  | nil => exact hinv
  | cons r rs ih =>
      rw [idFreshRun, Bool.and_eq_true] at hfresh
      exact ih (stepSimulation r p s) (adultIdInv_step i r p s hinv hfresh.1) hfresh.2

/-- C7 witness: the lone adult keeps its adult flag across a two-step
run in which no newborn is created. -/
theorem claim7_witness :
    adultIdInv "urchin-0" sLone
      ∧ idFreshRun "urchin-0" pStill [rngZero, rngZero] sLone = true
      ∧ adultIdInv "urchin-0" (stepN pStill [rngZero, rngZero] sLone) := by
  have h1 : adultIdInv "urchin-0" sLone := by
    intro u hm _
    simp [sLone] at hm
    rw [hm]
    rfl
  have h2 : idFreshRun "urchin-0" pStill [rngZero, rngZero] sLone = true := by
    norm_num [idFreshRun, idFresh, stepN, stepSimulation, stepHarvest, stepAfterRepro,
      stepNewborns, stepSurvivors, stepPhase1, stepMovedHarvesters, harvestedThisTick,
      urchinPhase, grazeCorals, moveUrchin, moveAgent, bounce, ageUrchin, reproduceUrchins,
      collectNewborns, spawnB, mkOffspring, harvestUrchins, updateCorals, distLtB,
      rngZero, pStill, pBase, sLone, uOrigin, width, height, cellSize]
  exact ⟨h1, h2, claim7_adult_sticky "urchin-0" pStill [rngZero, rngZero] sLone h1 h2⟩

/-- C8: in the grazing pass, one urchin sweeping the coral list updates
exactly the corals within one cell size that are not dead (each by the
specified health / status / algae rule, independent of the order), and
its energy rises by `grazingRate * 0.5` for each such coral. -/
theorem claim8_grazing_effects (p : Params) (u : Urchin) (cs : List Coral) :
    (grazeCorals p u cs).2
        = cs.map (fun c => if grazeCondB p u.x u.y c then coralAfterGraze p c else c)
      ∧ (grazeCorals p u cs).1.energy
          = u.energy + (cs.countP (grazeCondB p u.x u.y) : ℚ) * (p.grazingRate * (1/2))
      ∧ ∀ c : Coral, grazeCondB p u.x u.y c = true →
          (coralAfterGraze p c).health
              = (if c.health - p.grazingRate ≤ 0 then 0 else c.health - p.grazingRate)
            ∧ (coralAfterGraze p c).status
              = (if c.health - p.grazingRate ≤ 0 then CoralStatus.dead
                 else if c.health - p.grazingRate < p.coralDegradationThreshold then
                   CoralStatus.degraded
                 else c.status)
            ∧ (coralAfterGraze p c).algaeLevel
              = max 0 (c.algaeLevel - p.grazingRate * (3/10)) := by
  refine ⟨grazeCorals_snd p u cs, grazeCorals_fst_energy p u cs, ?_⟩
  intro c _
  unfold coralAfterGraze
  dsimp only
  split
  · exact ⟨by simp_all, by simp_all, rfl⟩
  · split
    · exact ⟨by simp_all, by simp_all, rfl⟩
    · exact ⟨by simp_all, by simp_all, rfl⟩

/-- C8 witness: the concrete pair (`uGraze`, `cGraze`) is within range
with a non-dead coral, and the theorem's per-pair rule applies to it. -/
theorem claim8_witness :
    grazeCondB pBase uGraze.x uGraze.y cGraze = true
      ∧ ((coralAfterGraze pBase cGraze).health
            = (if cGraze.health - pBase.grazingRate ≤ 0 then 0
               else cGraze.health - pBase.grazingRate)
          ∧ (coralAfterGraze pBase cGraze).status
            = (if cGraze.health - pBase.grazingRate ≤ 0 then CoralStatus.dead
               else if cGraze.health - pBase.grazingRate < pBase.coralDegradationThreshold then
                 CoralStatus.degraded
               else cGraze.status)
          ∧ (coralAfterGraze pBase cGraze).algaeLevel
            = max 0 (cGraze.algaeLevel - pBase.grazingRate * (3/10))) :=
  ⟨by norm_num [grazeCondB, distLtB, uGraze, cGraze, cellSize]; simp,
   (claim8_grazing_effects pBase uGraze [cGraze]).2.2 cGraze
     (by norm_num [grazeCondB, distLtB, uGraze, cGraze, cellSize]; simp)⟩

/-- C9: reproduction evaluates every parent against the fixed
pre-reproduction adult list; the parent list is updated in place (each
successful parent loses 20 energy and has `lastSpawn` set to the current
tick, all others are untouched); the newborns — exactly one per
successful spawn attempt — are returned separately, to be appended only
after the whole pass, each with zero age, juvenile status, energy 30,
`lastSpawn` equal to the current tick, and (for jitter draws in [0,1]) a
position within ±10 units of a parent satisfying all spawn conditions. -/
theorem claim9_reproduction_rules (p : Params) (rng : Rng) (tick : ℕ) (us : List Urchin) :
    (reproduceUrchins p rng tick us).1
        = us.map (fun u =>
            if u.isAdult && spawnB p rng tick (us.filter (fun v => v.isAdult)) u then
              { u with energy := u.energy - 20, lastSpawn := tick }
            else u)
      ∧ (reproduceUrchins p rng tick us).2.length
          = (us.filter (fun v => v.isAdult)).countP
              (spawnB p rng tick (us.filter (fun v => v.isAdult)))
      ∧ (∀ n ∈ (reproduceUrchins p rng tick us).2,
          n.age = 0 ∧ n.isAdult = false ∧ n.energy = 30 ∧ n.lastSpawn = tick)
      ∧ ((∀ j : String, 0 ≤ rng.reproJx j ∧ rng.reproJx j ≤ 1) →
         (∀ j : String, 0 ≤ rng.reproJy j ∧ rng.reproJy j ≤ 1) →
          ∀ n ∈ (reproduceUrchins p rng tick us).2,
            ∃ par ∈ us, par.isAdult = true
              ∧ par.energy > 60
              ∧ par.lastSpawn + 50 < tick
              ∧ (∃ o ∈ us.filter (fun v => v.isAdult), o.id ≠ par.id
                  ∧ distLtB ((par.x - o.x) ^ 2 + (par.y - o.y) ^ 2) p.spawnRadius = true)
              ∧ rng.reproCoin par.id < p.reproductionRate
              ∧ |n.x - par.x| ≤ 10 ∧ |n.y - par.y| ≤ 10) := by
  refine ⟨reproduceUrchins_fst p rng tick us, ?_, ?_, ?_⟩
  · rw [reproduceUrchins_snd]
    exact collectNewborns_length p rng tick _ _
  · intro n hn
    rw [reproduceUrchins_snd] at hn
    rcases collectNewborns_mem p rng tick _ _ n hn with ⟨par, _, _, he⟩
    rw [he]
    exact ⟨rfl, rfl, rfl, rfl⟩
  · intro hjx hjy n hn
    rw [reproduceUrchins_snd] at hn
    rcases collectNewborns_mem p rng tick _ _ n hn with ⟨par, hpar, hs, he⟩
    refine ⟨par, List.mem_of_mem_filter hpar, List.of_mem_filter hpar, ?_⟩
    unfold spawnB at hs
    rw [Bool.and_eq_true, Bool.and_eq_true, Bool.and_eq_true] at hs
    obtain ⟨⟨⟨he60, hcool⟩, hnear⟩, hcoin⟩ := hs
    refine ⟨of_decide_eq_true he60, of_decide_eq_true hcool, ?_, of_decide_eq_true hcoin, ?_, ?_⟩
    · rcases List.any_eq_true.mp hnear with ⟨o, ho, hb⟩
      rw [Bool.and_eq_true] at hb
      exact ⟨o, ho, of_decide_eq_true hb.1, hb.2⟩
    · rw [he]
      show |par.x + (rng.reproJx par.id - 1/2) * 20 - par.x| ≤ 10
      have hj := hjx par.id
      rw [abs_le]
      constructor <;> nlinarith [hj.1, hj.2]
    · rw [he]
      show |par.y + (rng.reproJy par.id - 1/2) * 20 - par.y| ≤ 10
      have hj := hjy par.id
      rw [abs_le]
      constructor <;> nlinarith [hj.1, hj.2]

/-- C9 witness: the edge-spawning scenario satisfies the jitter bounds
and produces a newborn that the theorem traces back to a concrete
parent. -/
theorem claim9_witness :
    (∀ j : String, 0 ≤ rngZero.reproJx j ∧ rngZero.reproJx j ≤ 1)
      ∧ (∀ j : String, 0 ≤ rngZero.reproJy j ∧ rngZero.reproJy j ≤ 1)
      ∧ (mkOffspring pSpawn rngZero 60 uEdgeA ∈ (reproduceUrchins pSpawn rngZero 60 [uEdgeA, uEdgeB]).2)
      ∧ (∃ par ∈ [uEdgeA, uEdgeB], par.isAdult = true
          ∧ par.energy > 60
          ∧ par.lastSpawn + 50 < 60
          ∧ (∃ o ∈ [uEdgeA, uEdgeB].filter (fun v => v.isAdult), o.id ≠ par.id
              ∧ distLtB ((par.x - o.x) ^ 2 + (par.y - o.y) ^ 2) pSpawn.spawnRadius = true)
          ∧ rngZero.reproCoin par.id < pSpawn.reproductionRate
          ∧ |(mkOffspring pSpawn rngZero 60 uEdgeA).x - par.x| ≤ 10
          ∧ |(mkOffspring pSpawn rngZero 60 uEdgeA).y - par.y| ≤ 10) := by
  have hjx : ∀ j : String, 0 ≤ rngZero.reproJx j ∧ rngZero.reproJx j ≤ 1 := by
    intro j
    norm_num [rngZero]
  have hjy : ∀ j : String, 0 ≤ rngZero.reproJy j ∧ rngZero.reproJy j ≤ 1 := by
    intro j
    norm_num [rngZero]
  have hmem : mkOffspring pSpawn rngZero 60 uEdgeA
      ∈ (reproduceUrchins pSpawn rngZero 60 [uEdgeA, uEdgeB]).2 := by
    rw [reproduceUrchins_snd]
    norm_num [collectNewborns, spawnB, distLtB, mkOffspring,
      rngZero, pSpawn, pBase, uEdgeA, uEdgeB, width, height]
    simp
  exact ⟨hjx, hjy, hmem,
    (claim9_reproduction_rules pSpawn rngZero 60 [uEdgeA, uEdgeB]).2.2.2 hjx hjy
      (mkOffspring pSpawn rngZero 60 uEdgeA) hmem⟩

end UrchinSim
